import Mathlib

/-!
Verification of the provider-routing and task-coordination layer of the
ai-hedge-fund repository: a shallow embedding of
src/orchestrator/multi_llm_router.py and src/orchestrator/task_coordinator.py.

Modelling conventions:
- Python dicts with string keys become association lists (List (String × _)),
  looked up with List.lookup (first match; a Python dict has unique keys, which
  appears as a Nodup hypothesis on the key list where it matters).
- Python floats become rationals (ℚ); the cost-table literals are exact
  decimals. Python round(x, 1) becomes round1 below (round-half-up at the
  first decimal); none of the concrete values in the claims are half-way
  ties, so the difference from bankers rounding is immaterial.
- A raised exception becomes an Except.error value; a try/except that records
  the error string becomes the corresponding Except.error branch.
- The LangChain client constructors behind _create_llm are opaque remote
  collaborators; whether one construction attempt succeeds is abstracted as a
  Boolean oracle canCreate, matching the try/except around each call site.
- ASCII upper/lower casing models Python str.upper()/str.lower(); the analysed
  payloads are ASCII.
- Wall-clock timestamps (datetime.now().isoformat()) are outside the shallow
  embedding and omitted from result records.
- The thread-pool execution paths (_execute_parallel, batch_analyze) complete
  futures in a nondeterministic order; they are modelled by quantifying over
  an arbitrary permutation of the task list, the sequential path being the
  identity permutation.
-/

/-- TaskComplexity enum of multi_llm_router.py. -/
inductive TaskComplexity where
  | SIMPLE
  | MODERATE
  | COMPLEX
  | CRITICAL
  deriving DecidableEq, Repr

/-- COST_MAP class attribute of MultiLLMRouter: per-model
(input, output) cost per 1M tokens, USD. -/
def COST_MAP : List (String × ℚ × ℚ) :=
  [("gpt-4o", (2.50, 10.00)),
   ("gpt-4o-mini", (0.15, 0.60)),
   ("gpt-3.5-turbo", (0.50, 1.50)),
   ("claude-3-5-sonnet-20241022", (3.00, 15.00)),
   ("claude-3-5-haiku-20241022", (0.80, 4.00)),
   ("claude-3-opus-20240229", (15.00, 75.00)),
   ("llama-3.3-70b-versatile", (0.59, 0.79)),
   ("llama-3.1-8b-instant", (0.05, 0.08)),
   ("gemini-2.0-flash-exp", (0.00, 0.00)),
   ("gemini-1.5-pro", (1.25, 5.00))]

/-- COMPLEXITY_MODELS class attribute of MultiLLMRouter: ranked
(provider, model) candidates per complexity tier. -/
def COMPLEXITY_MODELS : TaskComplexity → List (String × String)
  | .SIMPLE =>
    [("groq", "llama-3.1-8b-instant"),
     ("google", "gemini-2.0-flash-exp"),
     ("openai", "gpt-4o-mini")]
  | .MODERATE =>
    [("openai", "gpt-4o-mini"),
     ("google", "gemini-2.0-flash-exp"),
     ("anthropic", "claude-3-5-haiku-20241022"),
     ("groq", "llama-3.3-70b-versatile")]
  | .COMPLEX =>
    [("openai", "gpt-4o"),
     ("anthropic", "claude-3-5-sonnet-20241022"),
     ("google", "gemini-1.5-pro")]
  | .CRITICAL =>
    [("anthropic", "claude-3-opus-20240229"),
     ("openai", "gpt-4o"),
     ("anthropic", "claude-3-5-sonnet-20241022")]

/-- MultiLLMRouter instance state after __init__: the default
provider/model override, the cost_optimization flag, and the availability
map computed once by _check_available_providers (here an arbitrary
association list, the source building one entry per known provider from
environment-variable presence). -/
structure MultiLLMRouter where
  default_provider : Option String
  default_model : Option String
  cost_optimization : Bool
  available_providers : List (String × Bool)
  deriving DecidableEq, Repr

/-- Lookup self.available_providers.get(p, False). -/
def availGet (r : MultiLLMRouter) (p : String) : Bool :=
  (r.available_providers.lookup p).getD false

/-- Average cost (input + output) / 2 used in route_task's cost filter,
with COST_MAP.get(model, empty dict) defaulting each component to 0. -/
def avgCost (model : String) : ℚ :=
  let mc := (COST_MAP.lookup model).getD (0, 0)
  (mc.1 + mc.2) / 2

/-- Cost-filter test of route_task: a candidate model is skipped when the
Python condition (max_cost and self.cost_optimization) holds — max_cost
truthy means present and nonzero — and the model's average cost strictly
exceeds max_cost. -/
def costSkip (r : MultiLLMRouter) (max_cost : Option ℚ) (model : String) : Bool :=
  match max_cost with
  | none => false
  | some mc => decide (mc ≠ 0) && r.cost_optimization && decide (avgCost model > mc)

/-- Scan of the tier's ranked candidate list in route_task: skip
unavailable providers, skip candidates failing the cost filter, try to
construct the client, on construction failure continue with the rest. -/
def tryCandidates (r : MultiLLMRouter) (max_cost : Option ℚ)
    (canCreate : String → String → Bool) :
    List (String × String) → Option (String × String)
  | [] => none
  | (provider, model) :: rest =>
    if !availGet r provider then tryCandidates r max_cost canCreate rest
    else if costSkip r max_cost model then tryCandidates r max_cost canCreate rest
    else if canCreate provider model then some (provider, model)
    else tryCandidates r max_cost canCreate rest

/-- Fixed per-provider fallback model (_get_fallback_model), defaulting to
gpt-4o-mini for a provider outside the table. -/
def get_fallback_model (provider : String) : String :=
  (([("openai", "gpt-4o-mini"),
     ("anthropic", "claude-3-5-haiku-20241022"),
     ("groq", "llama-3.1-8b-instant"),
     ("google", "gemini-2.0-flash-exp")] : List (String × String)).lookup provider).getD
    "gpt-4o-mini"

/-- Fallback scan of route_task over self.available_providers.items() in
insertion order: first available provider whose fallback-model client
constructs wins. -/
def tryFallback (canCreate : String → String → Bool) :
    List (String × Bool) → Option (String × String)
  | [] => none
  | (provider, available) :: rest =>
    if available then
      if canCreate provider (get_fallback_model provider) then
        some (provider, get_fallback_model provider)
      else tryFallback canCreate rest
    else tryFallback canCreate rest

/-- Default-override test opening route_task: the override applies when
default_provider and default_model are both set (truthy, hence nonempty)
and the default provider is marked available. -/
def overridePair (r : MultiLLMRouter) : Option (String × String) :=
  match r.default_provider, r.default_model with
  | some dp, some dm =>
    if dp ≠ "" ∧ dm ≠ "" ∧ availGet r dp = true then some (dp, dm) else none
  | _, _ => none

/-- MultiLLMRouter.route_task: default override first (its client
construction is not guarded by try/except, so a failure there propagates),
then the tier's ranked candidates with availability and cost filtering,
then the all-providers fallback, else the RuntimeError. The returned LLM
client object itself is opaque and not modelled; the function returns the
(provider, model) pair. -/
def route_task (r : MultiLLMRouter) (task_description : String)
    (complexity : TaskComplexity) (max_cost : Option ℚ)
    (canCreate : String → String → Bool) : Except String (String × String) :=
  let _ := task_description
  match overridePair r with
  | some (dp, dm) =>
    if canCreate dp dm then .ok (dp, dm)
    else .error ("Failed to create LLM " ++ dp ++ "/" ++ dm)
  | none =>
    match tryCandidates r max_cost canCreate (COMPLEXITY_MODELS complexity) with
    | some pm => .ok pm
    | none =>
      match tryFallback canCreate r.available_providers with
      | some pm => .ok pm
      | none => .error "No LLM providers available. Please configure API keys."

/-- MultiLLMRouter.estimate_cost: pure arithmetic over the cost table,
with a miss defaulting both components to 0. The provider argument is
accepted and unused, as in the source. -/
def estimate_cost (provider model : String) (input_tokens output_tokens : ℕ) : ℚ :=
  let _ := provider
  let costs := (COST_MAP.lookup model).getD (0, 0)
  (input_tokens : ℚ) / 1000000 * costs.1 + (output_tokens : ℚ) / 1000000 * costs.2

/-- SubTaskResult: one entry of the results dict that the coordinator
builds, either the error record try/except stores on failure or the
agent's free-text analysis payload on success. -/
inductive AgentResult where
  | failure (msg : String)
  | success (analysis : String)
  deriving DecidableEq, Repr

/-- Agent instances constructed by _get_or_create_agent, recording the
constructor used and the routed (llm_provider, model_name) arguments. -/
inductive Agent where
  | stockAnalyst (llm_provider model_name : String)
  | cryptoAnalyst (llm_provider model_name : String)
  | technical (llm_provider model_name : String)
  | fundamental (llm_provider model_name : String)
  deriving DecidableEq, Repr

/-- TaskCoordinator instance state: the router, the max_workers cap and
the self.agents cache (empty dict at construction). -/
structure TaskCoordinator where
  llm_router : MultiLLMRouter
  max_workers : ℕ
  agents : List (String × Agent)
  deriving DecidableEq, Repr

/-- Dispatch of the if/elif chain in _get_or_create_agent choosing the
agent constructor for an agent_type tag; none models the ValueError of
the final else branch. -/
def mkAgent (agent_type provider model : String) : Option Agent :=
  if agent_type = "stock_analyst" then some (.stockAnalyst provider model)
  else if agent_type = "crypto_analyst" then some (.cryptoAnalyst provider model)
  else if agent_type = "technical" then some (.technical provider model)
  else if agent_type = "fundamental" then some (.fundamental provider model)
  else none

/-- TaskCoordinator._get_or_create_agent: return the cached agent if the
type is present, otherwise route, construct, cache, return. The result
carries the updated coordinator state and a flag telling whether the
router was invoked on this call (true exactly on a cache miss). -/
def get_or_create_agent (c : TaskCoordinator) (agent_type : String)
    (complexity : TaskComplexity) (canCreate : String → String → Bool) :
    Except String (Agent × TaskCoordinator × Bool) :=
  match c.agents.lookup agent_type with
  | some agent => .ok (agent, c, false)
  | none =>
    match route_task c.llm_router (agent_type ++ " analysis") complexity none canCreate with
    | .error e => .error e
    | .ok (provider, model) =>
      match mkAgent agent_type provider model with
      | none => .error ("Unknown agent type: " ++ agent_type)
      | some agent =>
        .ok (agent, { c with agents := c.agents ++ [(agent_type, agent)] }, true)

/-- Coordinator state after one _get_or_create_agent call; a raised
exception leaves self.agents untouched. -/
def stateAfter (c : TaskCoordinator) (agent_type : String)
    (complexity : TaskComplexity) (canCreate : String → String → Bool) :
    TaskCoordinator :=
  match get_or_create_agent c agent_type complexity canCreate with
  | .ok (_, c2, _) => c2
  | .error _ => c

/-- Coordinator state after a sequence of _get_or_create_agent calls,
each request naming an agent type and a complexity. -/
def runSeq (canCreate : String → String → Bool) (c : TaskCoordinator) :
    List (String × TaskComplexity) → TaskCoordinator
  | [] => c
  | (t, cmpl) :: rest => runSeq canCreate (stateAfter c t cmpl canCreate) rest

/-- TaskCoordinator._execute_sequential with the agent call abstracted as
the injected execute function: one entry per task in list order, the
try/except storing the result or the error record. -/
def execute_sequential {α : Type} (execute : String → Except String α)
    (tasks : List String) : List (String × Except String α) :=
  tasks.map fun t => (t, execute t)

/-- TaskCoordinator._execute_parallel: the ThreadPoolExecutor settles the
same per-task computations but inserts results in as_completed order, an
arbitrary permutation of the submitted tasks; the permutation appears as a
theorem hypothesis. -/
def execute_parallel {α : Type} (execute : String → Except String α)
    (completion_order : List String) : List (String × Except String α) :=
  completion_order.map fun t => (t, execute t)

/-- Tickers actually submitted by the loop in batch_analyze: per ticker,
asset_type stock and crypto submit a future, any other asset_type hits
the continue branch and submits nothing. -/
def submittedTickers (asset_type : String) : List String → List String
  | [] => []
  | t :: rest =>
    if asset_type = "stock" then t :: submittedTickers asset_type rest
    else if asset_type = "crypto" then t :: submittedTickers asset_type rest
    else submittedTickers asset_type rest

/-- Decidable equality for Except values, used to evaluate concrete
result mappings in witnesses. -/
instance {ε α : Type} [DecidableEq ε] [DecidableEq α] : DecidableEq (Except ε α) := fun a b =>
  match a, b with
  | .error e1, .error e2 =>
    if h : e1 = e2 then .isTrue (by rw [h]) else .isFalse (by simp [h])
  | .error _, .ok _ => .isFalse (by simp)
  | .ok _, .error _ => .isFalse (by simp)
  | .ok v1, .ok v2 =>
    if h : v1 = v2 then .isTrue (by rw [h]) else .isFalse (by simp [h])

/-- Record returned by batch_analyze (its timestamp field is an external
clock call, outside the embedding). -/
structure BatchRecord (α : Type) where
  batch_analysis : Bool
  asset_type : String
  total_analyzed : ℕ
  results : List (String × Except String α)
  deriving DecidableEq, Repr

/-- TaskCoordinator.batch_analyze with the two per-ticker pipelines
abstracted as injected functions; completion_order is the as_completed
order over the submitted tickers (a permutation hypothesis in theorems). -/
def batch_analyze {α : Type} (analyzeStock analyzeCrypto : String → Except String α)
    (tickers : List String) (asset_type : String)
    (completion_order : List String) : BatchRecord α :=
  let _ := tickers
  let results := completion_order.map fun t =>
    (t, if asset_type = "stock" then analyzeStock t else analyzeCrypto t)
  { batch_analysis := true,
    asset_type := asset_type,
    total_analyzed := results.length,
    results := results }

/-- ASCII model of Python str.upper() on the char list of a payload. -/
def upperChars (s : String) : List Char := s.toList.map Char.toUpper

/-- ASCII model of Python str.lower() on the char list of a payload. -/
def lowerChars (s : String) : List Char := s.toList.map Char.toLower

/-- Decidable list-prefix test used by the substring and pattern scans. -/
def isPrefixList : List Char → List Char → Bool
  | [], _ => true
  | _ :: _, [] => false
  | a :: as, b :: bs => a == b && isPrefixList as bs

/-- Python substring containment (pat in s) over char lists. -/
def containsList (pat : List Char) : List Char → Bool
  | [] => isPrefixList pat []
  | c :: rest => isPrefixList pat (c :: rest) || containsList pat rest

/-- Separator class of the confidence pattern: a colon or whitespace,
modelling the regex class of colon-or-space between the word confidence
and the digits. -/
def isSepChar (c : Char) : Bool := c == ':' || c.isWhitespace

/-- Decimal value of a digit run (int of the captured group). -/
def digitsVal : List Char → ℕ → ℕ
  | [], acc => acc
  | c :: rest, acc => digitsVal rest (10 * acc + (c.toNat - 48))

/-- Leftmost match of the confidence pattern over the lowercased char
list: the literal word confidence, then one or more colon/whitespace
characters, then one or more digits, whose value is returned. Greedy
scanning needs no backtracking here because a digit is never a separator
character. -/
def findConf : List Char → Option ℕ
  | [] => none
  | c :: rest =>
    if isPrefixList "confidence".toList (c :: rest) then
      let after := (c :: rest).drop 10
      let sep := after.takeWhile isSepChar
      let ds := (after.drop sep.length).takeWhile Char.isDigit
      if sep ≠ [] ∧ ds ≠ [] then some (digitsVal ds 0) else findConf rest
    else findConf rest

/-- Confidence extraction of _determine_consensus: the redundant
containment pre-check followed by the regex search on the lowercased
payload. -/
def extractConfidence (analysis : String) : Option ℕ :=
  let low := lowerChars analysis
  if containsList "confidence".toList low then findConf low else none

/-- Keyword classification of _determine_consensus: case-insensitive
substring search in fixed BUY, SELL, HOLD priority order; a payload
containing none of the three contributes no tally. -/
def classifyRec (analysis : String) : Option String :=
  let up := upperChars analysis
  if containsList "BUY".toList up then some "BUY"
  else if containsList "SELL".toList up then some "SELL"
  else if containsList "HOLD".toList up then some "HOLD"
  else none

/-- Recommendation tallies collected by the loop of _determine_consensus:
failed entries are skipped, successful payloads classified, in the
iteration order of the result mapping. -/
def recommendationsOf (results : List (String × AgentResult)) : List String :=
  results.filterMap fun nr =>
    match nr.2 with
    | .failure _ => none
    | .success analysis => classifyRec analysis

/-- Confidence scores collected by the loop of _determine_consensus. -/
def confidenceScoresOf (results : List (String × AgentResult)) : List ℕ :=
  results.filterMap fun nr =>
    match nr.2 with
    | .failure _ => none
    | .success analysis => extractConfidence analysis

/-- Per-class breakdown dict of the consensus verdict. -/
structure Breakdown where
  BUY : ℕ
  SELL : ℕ
  HOLD : ℕ
  deriving DecidableEq, Repr

/-- Consensus verdict dict returned by _determine_consensus; breakdown is
an Option because the zero-tally early return carries no breakdown key. -/
structure ConsensusVerdict where
  recommendation : String
  confidence : ℚ
  agreement : ℚ
  breakdown : Option Breakdown
  deriving DecidableEq, Repr

/-- Rounding to one decimal place, modelling Python round(x, 1). -/
def round1 (x : ℚ) : ℚ := (round (x * 10) : ℚ) / 10

/-- TaskCoordinator._determine_consensus: tally extraction, the
INSUFFICIENT_DATA early return, strict-majority selection with MIXED
otherwise, agreement as a percentage, and mean confidence defaulting
to 5. -/
def determine_consensus (results : List (String × AgentResult)) : ConsensusVerdict :=
  let recommendations := recommendationsOf results
  let confidence_scores := confidenceScoresOf results
  if recommendations = [] then
    { recommendation := "INSUFFICIENT_DATA", confidence := 0, agreement := 0,
      breakdown := none }
  else
    let buy_count := recommendations.count "BUY"
    let sell_count := recommendations.count "SELL"
    let hold_count := recommendations.count "HOLD"
    let total := recommendations.length
    let pick : String × ℚ :=
      if buy_count > sell_count ∧ buy_count > hold_count then
        ("BUY", (buy_count : ℚ) / total)
      else if sell_count > buy_count ∧ sell_count > hold_count then
        ("SELL", (sell_count : ℚ) / total)
      else if hold_count > buy_count ∧ hold_count > sell_count then
        ("HOLD", (hold_count : ℚ) / total)
      else
        ("MIXED", (max buy_count (max sell_count hold_count) : ℚ) / total)
    let avg_confidence : ℚ :=
      if confidence_scores = [] then 5
      else ((confidence_scores.map fun n => (n : ℚ)).sum) / confidence_scores.length
    { recommendation := pick.1,
      confidence := round1 avg_confidence,
      agreement := round1 (pick.2 * 100),
      breakdown := some ⟨buy_count, sell_count, hold_count⟩ }

/-- Python analysis.split on the period character, over char lists: the
resulting segments, always at least one (split of the empty string is a
single empty segment). -/
def splitOnDot : List Char → List (List Char)
  | [] => [[]]
  | c :: rest =>
    if c = '.' then [] :: splitOnDot rest
    else
      match splitOnDot rest with
      | [] => [[c]]
      | h :: t => (c :: h) :: t

/-- First segment of the period split, modelling analysis.split at the
period character indexed at 0 in _create_summary. -/
def firstSentenceChars (l : List Char) : List Char := (splitOnDot l).headD []

/-- Per-entry digest lines built by the loop of _create_summary: the error
line for a failure, the first-sentence line for a success, the falsy
empty payload giving the placeholder. -/
def summaryLines : List (String × AgentResult) → List String
  | [] => []
  | (name, .failure msg) :: rest =>
    (name ++ ": Error - " ++ msg) :: summaryLines rest
  | (name, .success analysis) :: rest =>
    (name ++ ": " ++ (if analysis = "" then "No analysis"
      else String.mk (firstSentenceChars analysis.toList))) :: summaryLines rest

/-- TaskCoordinator._create_summary: the digest lines joined with
newlines. -/
def create_summary (results : List (String × AgentResult)) : String :=
  String.intercalate "\n" (summaryLines results)

/-- Success test on a recorded sub-task outcome. -/
def exceptIsOk {ε α : Type} : Except ε α → Bool
  | .ok _ => true
  | .error _ => false

/-- Association-list lookup returns the stored value of a present key when
the key list has no duplicates. -/
theorem lookup_eq_of_mem_nodup {β : Type} (l : List (String × β))
    (hnd : (l.map Prod.fst).Nodup) (p : String) (b : β) (hmem : (p, b) ∈ l) :
    l.lookup p = some b := by
  induction l with
  | nil => cases hmem
  | cons hd tl ih =>
    rcases List.mem_cons.1 hmem with heq | htl
    · subst heq
      simp [List.lookup]
    · have hne : p ≠ hd.1 := by
        intro hcontra
        have : hd.1 ∈ tl.map Prod.fst := by
          rw [← hcontra]
          exact List.mem_map_of_mem Prod.fst htl
        exact (List.nodup_cons.1 (by simpa using hnd)).1 this
      have : (hd.1, hd.2) :: tl = hd :: tl := by rfl
      rw [List.lookup, beq_false_of_ne hne]
      exact ih (List.nodup_cons.1 (by simpa using hnd)).2 htl

/-- Claim C8: estimate_cost is the pure token-scaled arithmetic over the
cost table — (inputTokens / 1M) * inputCost + (outputTokens / 1M) *
outputCost for a model present in COST_MAP (hence inputCost + outputCost
at one million tokens each), and 0 for an absent model, a cost-table miss
not being an error. -/
theorem claim_C8 (provider model : String) (i o : ℕ) :
    (∀ ci co : ℚ, COST_MAP.lookup model = some (ci, co) →
      estimate_cost provider model i o =
        (i : ℚ) / 1000000 * ci + (o : ℚ) / 1000000 * co ∧
      estimate_cost provider model 1000000 1000000 = ci + co) ∧
    (COST_MAP.lookup model = none → estimate_cost provider model i o = 0) := by
  constructor
  · intro ci co h
    constructor
    · simp [estimate_cost, h]
    · simp [estimate_cost, h]
  · intro h
    simp [estimate_cost, h]

/-- Witness for C8 at concrete inputs: gpt-4o is in the table with costs
2.50 and 10.00, so one million tokens each way costs 12.50; an unknown
model estimates to 0. -/
theorem claim_C8_witness :
    estimate_cost "openai" "gpt-4o" 1000000 1000000 = 12.50 ∧
    estimate_cost "openai" "not-a-model" 3 7 = 0 := by
  constructor
  · have h := ((claim_C8 "openai" "gpt-4o" 1000000 1000000).1 2.50 10.00
      (by simp [COST_MAP, List.lookup])).2
    rw [h]
    norm_num
  · exact (claim_C8 "openai" "not-a-model" 3 7).2 (by simp [COST_MAP, List.lookup])

/-- Submission loop of batch_analyze: an asset_type other than stock and
crypto submits nothing. -/
theorem submittedTickers_eq_nil (asset_type : String) (tickers : List String)
    (h1 : asset_type ≠ "stock") (h2 : asset_type ≠ "crypto") :
    submittedTickers asset_type tickers = [] := by
  induction tickers with
  | nil => rfl
  | cons t rest ih => simp [submittedTickers, h1, h2, ih]

/-- Claim C10: batch_analyze with an asset_type that is neither stock nor
crypto submits no work at all — every ticker hits the continue branch —
and returns without raising a batch record with batch_analysis true, the
given asset_type echoed back, an empty results mapping and
total_analyzed 0 (the timestamp field being outside the embedding). -/
theorem claim_C10 {α : Type} (analyzeStock analyzeCrypto : String → Except String α)
    (tickers : List String) (asset_type : String) (completion_order : List String)
    (h1 : asset_type ≠ "stock") (h2 : asset_type ≠ "crypto")
    (hperm : completion_order.Perm (submittedTickers asset_type tickers)) :
    batch_analyze analyzeStock analyzeCrypto tickers asset_type completion_order =
      { batch_analysis := true, asset_type := asset_type,
        total_analyzed := 0, results := [] } := by
  rw [submittedTickers_eq_nil asset_type tickers h1 h2] at hperm
  have hord : completion_order = [] := List.Perm.eq_nil hperm
  subst hord
  simp [batch_analyze]

/-- Witness for C10: a two-ticker batch with asset_type bond yields the
empty batch record. -/
theorem claim_C10_witness :
    batch_analyze (fun _ => Except.ok "r") (fun _ => Except.ok "r")
      ["AAPL", "BTC"] "bond" [] =
      { batch_analysis := true, asset_type := "bond",
        total_analyzed := 0, results := [] } :=
  claim_C10 _ _ _ _ _ (by decide) (by decide) (by simp [submittedTickers])

/-- Claim C3: consensus over the three successful payloads
BUY-confidence-8, BUY-confidence-6 and SELL yields recommendation BUY,
breakdown counts 2/1/0, agreement 66.7 (two of three tallies, as a
percentage rounded to one decimal) and confidence 7.0 (the mean of the
extracted integers 8 and 6). -/
theorem claim_C3 :
    determine_consensus
      [("A", .success "BUY, confidence: 8"),
       ("B", .success "BUY, confidence: 6"),
       ("C", .success "SELL")] =
      { recommendation := "BUY", confidence := 7.0, agreement := 66.7,
        breakdown := some ⟨2, 1, 0⟩ } := by
  have hrec : recommendationsOf
      [("A", .success "BUY, confidence: 8"),
       ("B", .success "BUY, confidence: 6"),
       ("C", .success "SELL")] = ["BUY", "BUY", "SELL"] := by decide
  have hconf : confidenceScoresOf
      [("A", .success "BUY, confidence: 8"),
       ("B", .success "BUY, confidence: 6"),
       ("C", .success "SELL")] = [8, 6] := by decide
  have hb : (["BUY", "BUY", "SELL"] : List String).count "BUY" = 2 := by decide
  have hs : (["BUY", "BUY", "SELL"] : List String).count "SELL" = 1 := by decide
  have hh : (["BUY", "BUY", "SELL"] : List String).count "HOLD" = 0 := by decide
  rw [determine_consensus, hrec, hconf]
  norm_num [hb, hs, hh, round1, round_eq]
  rw [if_neg (show ¬(["BUY", "BUY", "SELL"] : List String) = [] by decide)]
  rw [if_neg (show ¬([8, 6] : List ℕ) = [] by decide)]
  rw [show (70 : ℚ) + 1 / 2 = 141 / 2 by norm_num]
  rw [show (⌊(141 : ℚ) / 2⌋ : ℤ) = 70 by rw [Int.floor_eq_iff]; constructor <;> norm_num]
  norm_num

/-- Counterexample to claim C6 as stated: on a result mapping that
collects zero tallies (here a single failed entry) the verdict returned
by _determine_consensus is the early return carrying only recommendation
INSUFFICIENT_DATA, confidence 0 and agreement 0 — its breakdown is
absent (none), so the verdict does not include per-class breakdown counts
for every input mapping. -/
theorem claim_C6_counterexample :
    determine_consensus [("A", .failure "agent exploded")] =
      { recommendation := "INSUFFICIENT_DATA", confidence := 0, agreement := 0,
        breakdown := none } ∧
    (determine_consensus [("A", .failure "agent exploded")]).breakdown = none := by
  constructor <;> decide

/-- Claim C6 as amended: whenever at least one tally is collected, the
verdict includes the per-class breakdown counts for BUY, SELL and HOLD
alongside the recommendation, confidence and agreement; when zero tallies
are collected the verdict is exactly INSUFFICIENT_DATA with confidence 0
and agreement 0, and carries no breakdown. -/
theorem claim_C6 (results : List (String × AgentResult)) :
    (recommendationsOf results ≠ [] →
      (determine_consensus results).breakdown =
        some ⟨(recommendationsOf results).count "BUY",
              (recommendationsOf results).count "SELL",
              (recommendationsOf results).count "HOLD"⟩) ∧
    (recommendationsOf results = [] →
      determine_consensus results =
        { recommendation := "INSUFFICIENT_DATA", confidence := 0, agreement := 0,
          breakdown := none }) := by
  constructor
  · intro h
    simp [determine_consensus, h]
  · intro h
    simp [determine_consensus, h]

/-- Witness for the amended C6 at a concrete input with one BUY tally. -/
theorem claim_C6_witness :
    (determine_consensus [("A", AgentResult.success "BUY")]).breakdown =
      some ⟨1, 0, 0⟩ := by
  have h := (claim_C6 [("A", AgentResult.success "BUY")]).1 (by decide)
  exact h.trans (by decide)

/-- Splitting on periods never produces an empty segment list. -/
theorem splitOnDot_ne_nil (l : List Char) : splitOnDot l ≠ [] := by
  cases l with
  | nil => simp [splitOnDot]
  | cons c rest =>
    rw [splitOnDot]
    by_cases hc : c = '.'
    · simp [hc]
    · rw [if_neg hc]
      cases hsp : splitOnDot rest <;> simp

/-- Head segment of the period split is the prefix before the first
period. -/
theorem splitOnDot_headD (l : List Char) :
    (splitOnDot l).headD [] = l.takeWhile fun c => c != '.' := by
  induction l with
  | nil => rfl
  | cons c rest ih =>
    rw [splitOnDot]
    by_cases hc : c = '.'
    · simp [hc, List.takeWhile_cons]
    · rw [if_neg hc]
      cases hsp : splitOnDot rest with
      | nil => exact absurd hsp (splitOnDot_ne_nil rest)
      | cons h t =>
        rw [hsp] at ih
        simp only [List.headD_cons] at ih
        simp [List.takeWhile_cons, hc, ← ih]

/-- Claim C7: summarize emits exactly one line per result entry, in the
iteration order of the mapping, joined with newlines — a failure entry
becomes the name with an Error prefix and its message, a success entry
the name followed by the payload up to (not including) its first period
character, with the placeholder text for an empty payload; no entry is
omitted. -/
theorem claim_C7 (results : List (String × AgentResult)) :
    create_summary results =
      String.intercalate "\n" (results.map fun nr =>
        match nr.2 with
        | .failure msg => nr.1 ++ ": Error - " ++ msg
        | .success analysis =>
          nr.1 ++ ": " ++ (if analysis = "" then "No analysis"
            else String.mk (analysis.toList.takeWhile fun c => c != '.'))) := by
  rw [create_summary]
  congr 1
  induction results with
  | nil => rfl
  | cons hd tl ih =>
    obtain ⟨name, r⟩ := hd
    cases r with
    | failure msg => simp [summaryLines, ih]
    | success analysis =>
      have hsd := splitOnDot_headD analysis.toList
      rw [List.headD_eq_head?] at hsd
      simp only [String.toList] at hsd
      simp [summaryLines, ih, firstSentenceChars, hsd]

/-- Claim C5: on any result mapping whose successful entries produce at
least one tally but no class strictly exceeding both other counts,
consensus deterministically returns recommendation MIXED, with agreement
the numerically largest tally over the total tally count as a percentage
rounded to one decimal place. -/
theorem claim_C5 (results : List (String × AgentResult))
    (hne : recommendationsOf results ≠ [])
    (hb : ¬((recommendationsOf results).count "SELL" < (recommendationsOf results).count "BUY" ∧
            (recommendationsOf results).count "HOLD" < (recommendationsOf results).count "BUY"))
    (hs : ¬((recommendationsOf results).count "BUY" < (recommendationsOf results).count "SELL" ∧
            (recommendationsOf results).count "HOLD" < (recommendationsOf results).count "SELL"))
    (hh : ¬((recommendationsOf results).count "BUY" < (recommendationsOf results).count "HOLD" ∧
            (recommendationsOf results).count "SELL" < (recommendationsOf results).count "HOLD")) :
    (determine_consensus results).recommendation = "MIXED" ∧
    (determine_consensus results).agreement =
      round1 ((max ((recommendationsOf results).count "BUY")
          (max ((recommendationsOf results).count "SELL")
            ((recommendationsOf results).count "HOLD")) : ℚ) /
        ((recommendationsOf results).length : ℚ) * 100) := by
  rw [determine_consensus]
  simp only [if_neg hne]
  rw [if_neg hb, if_neg hs, if_neg hh]
  constructor
  · rfl
  · simp

/-- Witness for C5: one HOLD and one BUY tally tie without a strict
majority, giving MIXED with agreement 50.0. -/
theorem claim_C5_witness :
    (determine_consensus [("A", AgentResult.success "HOLD"),
        ("B", AgentResult.success "BUY")]).recommendation = "MIXED" ∧
    (determine_consensus [("A", AgentResult.success "HOLD"),
        ("B", AgentResult.success "BUY")]).agreement = 50 := by
  have h := claim_C5 [("A", AgentResult.success "HOLD"), ("B", AgentResult.success "BUY")]
    (by decide) (by decide) (by decide) (by decide)
  refine ⟨h.1, h.2.trans ?_⟩
  have hr : recommendationsOf [("A", AgentResult.success "HOLD"),
      ("B", AgentResult.success "BUY")] = ["HOLD", "BUY"] := by decide
  rw [hr]
  rw [show (["HOLD", "BUY"] : List String).count "BUY" = 1 from by decide,
      show (["HOLD", "BUY"] : List String).count "SELL" = 0 from by decide,
      show (["HOLD", "BUY"] : List String).count "HOLD" = 1 from by decide]
  norm_num [round1, round_eq, max_def]

/-- Counting a Boolean predicate and its negation partitions a list. -/
theorem countP_bool_split {α : Type} (q : α → Bool) (l : List α) :
    l.countP q + l.countP (fun a => !q a) = l.length := by
  induction l with
  | nil => rfl
  | cons a tl ih =>
    by_cases h : q a = true
    · rw [List.countP_cons_of_pos _ _ h,
        List.countP_cons_of_neg _ _ (by simp [h]), List.length_cons]
      omega
    · rw [List.countP_cons_of_neg _ _ (by simp [h]),
        List.countP_cons_of_pos _ _ (by simp [h]), List.length_cons]
      omega

/-- On a duplicate-free list where the predicate holds at exactly one
element, the predicate count is one. -/
theorem countP_eq_one_of_unique {α : Type} [DecidableEq α] (l : List α)
    (q : α → Bool) (t0 : α) (hnd : l.Nodup) (hmem : t0 ∈ l) (hq : q t0 = true)
    (hother : ∀ t ∈ l, t ≠ t0 → q t = false) : l.countP q = 1 := by
  induction l with
  | nil => cases hmem
  | cons a tl ih =>
    rcases List.mem_cons.1 hmem with rfl | htl
    · rw [List.countP_cons_of_pos _ _ hq]
      have hz : tl.countP q = 0 := List.countP_eq_zero.2 (fun t ht => by
        have htne : t ≠ t0 := fun hteq => (List.nodup_cons.1 hnd).1 (hteq ▸ ht)
        simp [hother t (List.mem_cons_of_mem _ ht) htne])
      rw [hz]
    · have hane : a ≠ t0 := fun h => (List.nodup_cons.1 hnd).1 (h ▸ htl)
      rw [List.countP_cons_of_neg _ _
        (by simp [hother a (List.mem_cons_self a tl) hane])]
      exact ih (List.nodup_cons.1 hnd).2 htl
        (fun t ht htne => hother t (List.mem_cons_of_mem _ ht) htne)

/-- Lookup of a present key in the keyed result list built over a task
list finds that task's computed value. -/
theorem lookup_map_pair {α : Type} (f : String → α) (t0 : String)
    (l : List String) (hmem : t0 ∈ l) :
    (l.map fun t => (t, f t)).lookup t0 = some (f t0) := by
  induction l with
  | nil => cases hmem
  | cons a tl ih =>
    by_cases h : t0 = a
    · subst h
      simp [List.lookup]
    · rcases List.mem_cons.1 hmem with rfl | htl
      · exact absurd rfl h
      · rw [List.map_cons, List.lookup, beq_false_of_ne h]
        exact ih htl

/-- Claim C1: for a batch of pairwise-distinct sub-task names where the
injected execute function fails for exactly one name and succeeds for all
others, both execution paths — sequential (the identity completion
order) and parallel (any completion order, a permutation of the task
list) — return a keyed result list with exactly one entry per sub-task
name, exactly one failure entry carrying that sub-task's error
description, and N−1 success entries; every sibling still gets its entry,
so the one failure neither cancels siblings nor aborts the batch. -/
theorem claim_C1 {α : Type} (execute : String → Except String α)
    (tasks : List String) (t0 : String) (e : String)
    (completion_order : List String)
    (hnd : tasks.Nodup) (ht0 : t0 ∈ tasks)
    (herr : execute t0 = .error e)
    (hok : ∀ t ∈ tasks, t ≠ t0 → exceptIsOk (execute t) = true)
    (hperm : completion_order.Perm tasks) :
    execute_sequential execute tasks = execute_parallel execute tasks ∧
    (execute_parallel execute completion_order).length = tasks.length ∧
    ((execute_parallel execute completion_order).map Prod.fst).Perm tasks ∧
    (execute_parallel execute completion_order).countP
      (fun p => !exceptIsOk p.2) = 1 ∧
    (execute_parallel execute completion_order).countP
      (fun p => exceptIsOk p.2) = tasks.length - 1 ∧
    (execute_parallel execute completion_order).lookup t0 = some (.error e) ∧
    ∀ t ∈ tasks, ∃ res, (t, res) ∈ execute_parallel execute completion_order ∧
      (t ≠ t0 → exceptIsOk res = true) := by
  have hlen : (execute_parallel execute completion_order).length = tasks.length := by
    simp [execute_parallel, hperm.length_eq]
  have hbad : (execute_parallel execute completion_order).countP
      (fun p => !exceptIsOk p.2) = 1 := by
    rw [execute_parallel, List.countP_map, hperm.countP_eq]
    exact countP_eq_one_of_unique tasks _ t0 hnd ht0
      (by simp [Function.comp, herr, exceptIsOk])
      (fun t ht htne => by simp [Function.comp, hok t ht htne])
  have hgood : (execute_parallel execute completion_order).countP
      (fun p => exceptIsOk p.2) = tasks.length - 1 := by
    have hsplit := countP_bool_split
      (fun p : String × Except String α => exceptIsOk p.2)
      (execute_parallel execute completion_order)
    rw [hlen] at hsplit
    have hbad2 : (execute_parallel execute completion_order).countP
        (fun a => !(fun p : String × Except String α => exceptIsOk p.2) a) = 1 := hbad
    omega
  refine ⟨rfl, hlen, ?_, hbad, hgood, ?_, ?_⟩
  · have hfst : (execute_parallel execute completion_order).map Prod.fst =
        completion_order := by
      rw [execute_parallel, List.map_map]
      have hcomp : (Prod.fst ∘ fun t : String => (t, execute t)) = id := rfl
      rw [hcomp, List.map_id]
    rw [hfst]
    exact hperm
  · have hlook := lookup_map_pair execute t0 completion_order (hperm.mem_iff.2 ht0)
    rw [herr] at hlook
    exact hlook
  · intro t ht
    refine ⟨execute t, ?_, fun htne => hok t ht htne⟩
    exact List.mem_map_of_mem _ (hperm.mem_iff.2 ht)

/-- Witness for C1: three sub-tasks with distinct names where only B
fails, executed in the completion order C, A, B. -/
theorem claim_C1_witness :
    (["A", "B", "C"] : List String).Nodup ∧
    (fun t => if t = "B" then (Except.error "boom" : Except String String)
      else .ok "fine") "B" = .error "boom" ∧
    (["C", "A", "B"] : List String).Perm ["A", "B", "C"] ∧
    (execute_parallel (fun t => if t = "B"
        then (Except.error "boom" : Except String String) else .ok "fine")
      ["C", "A", "B"]).countP (fun p => !exceptIsOk p.2) = 1 ∧
    (execute_parallel (fun t => if t = "B"
        then (Except.error "boom" : Except String String) else .ok "fine")
      ["C", "A", "B"]).countP (fun p => exceptIsOk p.2) =
        (["A", "B", "C"] : List String).length - 1 ∧
    (execute_parallel (fun t => if t = "B"
        then (Except.error "boom" : Except String String) else .ok "fine")
      ["C", "A", "B"]).lookup "B" = some (.error "boom") := by
  have h := claim_C1
    (fun t => if t = "B" then (Except.error "boom" : Except String String)
      else .ok "fine")
    ["A", "B", "C"] "B" "boom" ["C", "A", "B"]
    (by decide) (by decide) (by decide) (by decide) (by decide)
  exact ⟨by decide, by decide, by decide, h.2.2.2.1, h.2.2.2.2.1, h.2.2.2.2.2.1⟩

/-- Tier-candidate scan only returns a candidate whose provider passed
the availability filter. -/
theorem tryCandidates_avail (r : MultiLLMRouter) (max_cost : Option ℚ)
    (canCreate : String → String → Bool) (l : List (String × String))
    (p m : String) (h : tryCandidates r max_cost canCreate l = some (p, m)) :
    availGet r p = true := by
  induction l with
  | nil => simp [tryCandidates] at h
  | cons hd tl ih =>
    obtain ⟨provider, model⟩ := hd
    rw [tryCandidates] at h
    by_cases hav : availGet r provider = true
    · rw [if_neg (by simp [hav])] at h
      by_cases hcs : costSkip r max_cost model = true
      · rw [if_pos hcs] at h
        exact ih h
      · rw [if_neg hcs] at h
        by_cases hcc : canCreate provider model = true
        · rw [if_pos hcc] at h
          obtain ⟨rfl, rfl⟩ := Prod.mk.injEq .. ▸ Option.some.injEq .. ▸ h
          exact hav
        · rw [if_neg hcc] at h
          exact ih h
    · rw [if_pos (by simp [Bool.not_eq_true] at hav ⊢; exact hav)] at h
      exact ih h

/-- Fallback scan only returns pairs built from an entry marked true,
with that provider's fixed fallback model. -/
theorem tryFallback_mem (canCreate : String → String → Bool)
    (l : List (String × Bool)) (p m : String)
    (h : tryFallback canCreate l = some (p, m)) :
    (p, true) ∈ l ∧ m = get_fallback_model p := by
  induction l with
  | nil => simp [tryFallback] at h
  | cons hd tl ih =>
    obtain ⟨provider, available⟩ := hd
    rw [tryFallback] at h
    by_cases hav : available = true
    · rw [if_pos hav] at h
      by_cases hcc : canCreate provider (get_fallback_model provider) = true
      · rw [if_pos hcc] at h
        obtain ⟨rfl, rfl⟩ := Prod.mk.injEq .. ▸ Option.some.injEq .. ▸ h
        exact ⟨by simp [hav], rfl⟩
      · rw [if_neg hcc] at h
        obtain ⟨hmem, hm⟩ := ih h
        exact ⟨List.mem_cons_of_mem _ hmem, hm⟩
    · rw [if_neg hav] at h
      obtain ⟨hmem, hm⟩ := ih h
      exact ⟨List.mem_cons_of_mem _ hmem, hm⟩

/-- Default override only applies when its provider is marked
available. -/
theorem overridePair_avail (r : MultiLLMRouter) (dp dm : String)
    (h : overridePair r = some (dp, dm)) : availGet r dp = true := by
  cases hp : r.default_provider with
  | none => simp [overridePair, hp] at h
  | some p0 =>
    cases hm : r.default_model with
    | none => simp [overridePair, hp, hm] at h
    | some m0 =>
      by_cases hc : p0 ≠ "" ∧ m0 ≠ "" ∧ availGet r p0 = true
      · simp only [overridePair, hp, hm, if_pos hc, Option.some.injEq,
          Prod.mk.injEq] at h
        obtain ⟨rfl, rfl⟩ := h
        exact hc.2.2
      · simp only [overridePair, hp, hm, if_neg hc] at h
        exact Option.noConfusion h

/-- Claim C2: whenever route_task returns a (provider, model) pair — via
the default override, the tier's ranked candidate list, or the
all-providers fallback — the returned provider is marked available (maps
to true) in the router's availability map. -/
theorem claim_C2 (r : MultiLLMRouter) (td : String) (cmpl : TaskComplexity)
    (max_cost : Option ℚ) (canCreate : String → String → Bool) (p m : String)
    (hnd : (r.available_providers.map Prod.fst).Nodup)
    (hok : route_task r td cmpl max_cost canCreate = .ok (p, m)) :
    availGet r p = true := by
  cases hov : overridePair r with
  | some pm =>
    obtain ⟨dp, dm⟩ := pm
    simp only [route_task, hov] at hok
    by_cases hcc : canCreate dp dm = true
    · rw [if_pos hcc] at hok
      simp only [Except.ok.injEq, Prod.mk.injEq] at hok
      obtain ⟨rfl, rfl⟩ := hok
      exact overridePair_avail r dp dm hov
    · rw [if_neg hcc] at hok
      simp at hok
  | none =>
    simp only [route_task, hov] at hok
    cases htc : tryCandidates r max_cost canCreate (COMPLEXITY_MODELS cmpl) with
    | some pm =>
      obtain ⟨p1, m1⟩ := pm
      simp only [htc, Except.ok.injEq, Prod.mk.injEq] at hok
      obtain ⟨rfl, rfl⟩ := hok
      exact tryCandidates_avail r max_cost canCreate _ p1 m1 htc
    | none =>
      simp only [htc] at hok
      cases hfb : tryFallback canCreate r.available_providers with
      | some pm =>
        obtain ⟨p1, m1⟩ := pm
        simp only [hfb, Except.ok.injEq, Prod.mk.injEq] at hok
        obtain ⟨rfl, rfl⟩ := hok
        obtain ⟨hmem, _⟩ := tryFallback_mem canCreate _ p1 m1 hfb
        rw [availGet, lookup_eq_of_mem_nodup _ hnd p1 true hmem]
        rfl
      | none =>
        simp only [hfb] at hok
        simp at hok

/-- Witness for C2: a router with only groq credentialed routes a SIMPLE
task to groq, which is marked available. -/
theorem claim_C2_witness :
    (((⟨none, none, true, [("groq", true)]⟩ :
        MultiLLMRouter).available_providers.map Prod.fst).Nodup) ∧
    route_task (⟨none, none, true, [("groq", true)]⟩ : MultiLLMRouter)
      "quick lookup" .SIMPLE none (fun _ _ => true) =
      .ok ("groq", "llama-3.1-8b-instant") ∧
    availGet (⟨none, none, true, [("groq", true)]⟩ : MultiLLMRouter)
      "groq" = true := by
  refine ⟨by decide, by decide, ?_⟩
  exact claim_C2 _ "quick lookup" .SIMPLE none (fun _ _ => true) "groq"
    "llama-3.1-8b-instant" (by decide) (by decide)

/-- Counterexample to claim C4 as stated: a router constructed with
cost_optimization disabled ignores the supplied ceiling entirely, so with
openai credentialed and a ceiling of 0.01 — strictly below the average
cost of every COMPLEX-tier candidate — route_task still returns the
tier-list candidate (openai, gpt-4o), which is not openai's fixed
fallback model and not the no-provider error. -/
theorem claim_C4_counterexample :
    route_task (⟨none, none, false, [("openai", true)]⟩ : MultiLLMRouter)
      "deep analysis" .COMPLEX (some 0.01) (fun _ _ => true) =
      .ok ("openai", "gpt-4o") ∧
    ("openai", "gpt-4o") ∈ COMPLEXITY_MODELS .COMPLEX ∧
    (∀ pm ∈ COMPLEXITY_MODELS TaskComplexity.COMPLEX, (0.01 : ℚ) < avgCost pm.2) ∧
    "gpt-4o" ≠ get_fallback_model "openai" := by
  refine ⟨?_, by decide, ?_, by decide⟩
  · have hcs : costSkip (⟨none, none, false, [("openai", true)]⟩ : MultiLLMRouter)
        (some 0.01) "gpt-4o" = false := by
      simp [costSkip]
    simp [route_task, overridePair, tryCandidates, availGet, List.lookup,
      COMPLEXITY_MODELS, hcs]
  · intro pm hpm
    fin_cases hpm <;>
      norm_num [show avgCost "gpt-4o" = (2.50 + 10.00) / 2 from rfl,
        show avgCost "claude-3-5-sonnet-20241022" = (3.00 + 15.00) / 2 from rfl,
        show avgCost "gemini-1.5-pro" = (1.25 + 5.00) / 2 from rfl]

/-- Tier-candidate scan skips every candidate when cost optimization is
on and the nonzero ceiling is strictly below each candidate's average
cost. -/
theorem tryCandidates_none_of_below (r : MultiLLMRouter) (mc : ℚ)
    (cc : String → String → Bool) (l : List (String × String))
    (hopt : r.cost_optimization = true) (hmc : mc ≠ 0)
    (hbelow : ∀ pm ∈ l, mc < avgCost pm.2) :
    tryCandidates r (some mc) cc l = none := by
  induction l with
  | nil => rfl
  | cons hd tl ih =>
    obtain ⟨provider, model⟩ := hd
    rw [tryCandidates]
    have hgt : avgCost model > mc :=
      hbelow (provider, model) (List.mem_cons_self _ _)
    have hcs : costSkip r (some mc) model = true := by
      simp [costSkip, hopt, hmc, hgt]
    have hrest := ih (fun pm hpm => hbelow pm (List.mem_cons_of_mem _ hpm))
    by_cases hav : availGet r provider = true
    · rw [if_neg (by simp [hav]), if_pos hcs]
      exact hrest
    · rw [if_pos (by simp [Bool.not_eq_true] at hav ⊢; exact hav)]
      exact hrest

/-- Fallback scan over the availability entries returns none only when
every entry is marked false, provided client construction always
succeeds. -/
theorem tryFallback_none_all_false (cc : String → String → Bool)
    (l : List (String × Bool)) (hcc : ∀ a b, cc a b = true)
    (h : tryFallback cc l = none) : ∀ pb ∈ l, pb.2 = false := by
  induction l with
  | nil =>
    intro pb hpb
    cases hpb
  | cons hd tl ih =>
    obtain ⟨provider, available⟩ := hd
    rw [tryFallback] at h
    by_cases hav : available = true
    · rw [if_pos hav, if_pos (hcc provider (get_fallback_model provider))] at h
      exact Option.noConfusion h
    · rw [if_neg hav] at h
      intro pb hpb
      rcases List.mem_cons.1 hpb with rfl | htl
      · simpa using hav
      · exact ih h pb htl

/-- Claim C4 as amended: for a router with cost optimization enabled and
no default override in effect, whose LLM client construction succeeds,
and a nonzero cost ceiling strictly below the average cost of every
candidate in the tier's ranked list, route_task never returns a tier-list
candidate via the tier scan — it either returns an available provider's
fixed per-provider fallback model (ignoring the ceiling) or fails with
the no-provider-available error when every provider is unavailable. -/
theorem claim_C4 (r : MultiLLMRouter) (td : String) (cmpl : TaskComplexity)
    (mc : ℚ) (cc : String → String → Bool)
    (hnd : (r.available_providers.map Prod.fst).Nodup)
    (hov : overridePair r = none)
    (hopt : r.cost_optimization = true)
    (hmc : mc ≠ 0)
    (hbelow : ∀ pm ∈ COMPLEXITY_MODELS cmpl, mc < avgCost pm.2)
    (hcc : ∀ a b, cc a b = true) :
    (∃ p, route_task r td cmpl (some mc) cc = .ok (p, get_fallback_model p) ∧
      availGet r p = true) ∨
    (route_task r td cmpl (some mc) cc =
      .error "No LLM providers available. Please configure API keys." ∧
      ∀ pb ∈ r.available_providers, pb.2 = false) := by
  have htc := tryCandidates_none_of_below r mc cc (COMPLEXITY_MODELS cmpl)
    hopt hmc hbelow
  cases hfb : tryFallback cc r.available_providers with
  | some pm =>
    obtain ⟨p1, m1⟩ := pm
    obtain ⟨hmem, rfl⟩ := tryFallback_mem cc _ p1 m1 hfb
    left
    refine ⟨p1, ?_, ?_⟩
    · simp only [route_task, hov, htc, hfb]
    · rw [availGet, lookup_eq_of_mem_nodup _ hnd p1 true hmem]
      rfl
  | none =>
    right
    refine ⟨?_, tryFallback_none_all_false cc _ hcc hfb⟩
    simp only [route_task, hov, htc, hfb]

/-- Witness for the amended C4: with openai credentialed, cost
optimization on and ceiling 0.01 below every COMPLEX candidate's average
cost, route_task lands in the left disjunct — openai's fallback model. -/
theorem claim_C4_witness :
    (0.01 : ℚ) ≠ 0 ∧
    (∀ pm ∈ COMPLEXITY_MODELS TaskComplexity.COMPLEX, (0.01 : ℚ) < avgCost pm.2) ∧
    ((∃ p, route_task (⟨none, none, true, [("openai", true)]⟩ : MultiLLMRouter)
        "deep analysis" .COMPLEX (some 0.01) (fun _ _ => true) =
        .ok (p, get_fallback_model p) ∧
      availGet (⟨none, none, true, [("openai", true)]⟩ : MultiLLMRouter) p = true) ∨
     (route_task (⟨none, none, true, [("openai", true)]⟩ : MultiLLMRouter)
        "deep analysis" .COMPLEX (some 0.01) (fun _ _ => true) =
        .error "No LLM providers available. Please configure API keys." ∧
      ∀ pb ∈ (⟨none, none, true, [("openai", true)]⟩ :
        MultiLLMRouter).available_providers, pb.2 = false)) := by
  refine ⟨by norm_num, ?_, ?_⟩
  · intro pm hpm
    fin_cases hpm <;>
      norm_num [show avgCost "gpt-4o" = (2.50 + 10.00) / 2 from rfl,
        show avgCost "claude-3-5-sonnet-20241022" = (3.00 + 15.00) / 2 from rfl,
        show avgCost "gemini-1.5-pro" = (1.25 + 5.00) / 2 from rfl]
  · exact claim_C4 _ "deep analysis" .COMPLEX 0.01 (fun _ _ => true)
      (by decide) rfl rfl (by norm_num)
      (by intro pm hpm
          fin_cases hpm <;>
            norm_num [show avgCost "gpt-4o" = (2.50 + 10.00) / 2 from rfl,
              show avgCost "claude-3-5-sonnet-20241022" = (3.00 + 15.00) / 2 from rfl,
              show avgCost "gemini-1.5-pro" = (1.25 + 5.00) / 2 from rfl])
      (fun a b => rfl)

/-- Lookup in an extended association list still finds previously stored
values (a later dict insertion never shadows an existing key's first
match). -/
theorem lookup_append_some {β : Type} (l l2 : List (String × β)) (t : String)
    (v : β) (h : l.lookup t = some v) : (l ++ l2).lookup t = some v := by
  induction l with
  | nil => simp [List.lookup] at h
  | cons hd tl ih =>
    obtain ⟨k, w⟩ := hd
    cases hbk : (t == k) with
    | true =>
      simp only [List.cons_append, List.lookup, hbk] at h ⊢
      exact h
    | false =>
      simp only [List.cons_append, List.lookup, hbk] at h ⊢
      exact ih h

/-- Appending a fresh key at the end of an association list makes it
found by lookup. -/
theorem lookup_append_fresh {β : Type} (l : List (String × β)) (t : String)
    (v : β) (h : l.lookup t = none) : (l ++ [(t, v)]).lookup t = some v := by
  induction l with
  | nil => simp [List.lookup]
  | cons hd tl ih =>
    obtain ⟨k, w⟩ := hd
    cases hbk : (t == k) with
    | true =>
      simp only [List.lookup, hbk] at h
      exact Option.noConfusion h
    | false =>
      simp only [List.cons_append, List.lookup, hbk] at h ⊢
      exact ih h

/-- Lookup failure means the key is absent from the key list. -/
theorem lookup_none_not_mem_keys {β : Type} (l : List (String × β))
    (t : String) (h : l.lookup t = none) : t ∉ l.map Prod.fst := by
  induction l with
  | nil => simp
  | cons hd tl ih =>
    obtain ⟨k, w⟩ := hd
    cases hbk : (t == k) with
    | true =>
      simp only [List.lookup, hbk] at h
      exact Option.noConfusion h
    | false =>
      simp only [List.lookup, hbk] at h
      simp only [List.map_cons, List.mem_cons]
      rintro (rfl | hmem)
      · exact absurd rfl (beq_eq_false_iff_ne.1 hbk)
      · exact ih h hmem

/-- Cache hit of _get_or_create_agent: a cached type is returned as-is,
with no state change and no router invocation. -/
theorem goca_cached (c : TaskCoordinator) (t : String) (cmpl : TaskComplexity)
    (cc : String → String → Bool) (a : Agent) (h : c.agents.lookup t = some a) :
    get_or_create_agent c t cmpl cc = .ok (a, c, false) := by
  rw [get_or_create_agent, h]

/-- Structure of any successful _get_or_create_agent call: the returned
agent is cached under its type in the new state, every previously cached
entry is still found, and duplicate-freeness of the cache keys is
preserved. -/
theorem goca_ok_lookup (c : TaskCoordinator) (t : String)
    (cmpl : TaskComplexity) (cc : String → String → Bool) (a : Agent)
    (c2 : TaskCoordinator) (b : Bool)
    (h : get_or_create_agent c t cmpl cc = .ok (a, c2, b)) :
    c2.agents.lookup t = some a ∧
    (∀ s v, c.agents.lookup s = some v → c2.agents.lookup s = some v) ∧
    ((c.agents.map Prod.fst).Nodup → (c2.agents.map Prod.fst).Nodup) := by
  cases hl : c.agents.lookup t with
  | some a0 =>
    simp only [get_or_create_agent, hl, Except.ok.injEq, Prod.mk.injEq] at h
    obtain ⟨rfl, rfl, rfl⟩ := h
    exact ⟨hl, fun s v hv => hv, fun hn => hn⟩
  | none =>
    cases hr : route_task c.llm_router (t ++ " analysis") cmpl none cc with
    | error e =>
      simp only [get_or_create_agent, hl, hr] at h
      exact Except.noConfusion h
    | ok pm =>
      obtain ⟨provider, model⟩ := pm
      cases hmk : mkAgent t provider model with
      | none =>
        simp only [get_or_create_agent, hl, hr, hmk] at h
        exact Except.noConfusion h
      | some ag =>
        simp only [get_or_create_agent, hl, hr, hmk, Except.ok.injEq,
          Prod.mk.injEq] at h
        obtain ⟨rfl, rfl, rfl⟩ := h
        refine ⟨lookup_append_fresh _ _ _ hl,
          fun s v hv => lookup_append_some _ _ _ _ hv, fun hn => ?_⟩
        have hnm := lookup_none_not_mem_keys c.agents t hl
        show ((c.agents ++ [(t, ag)]).map Prod.fst).Nodup
        rw [List.map_append]
        refine List.Nodup.append hn (List.nodup_singleton t) ?_
        intro x hx hxt
        rw [List.map_singleton, List.mem_singleton] at hxt
        subst hxt
        exact hnm hx

/-- Running any further sequence of agent requests preserves cached
entries and cache-key duplicate-freeness. -/
theorem runSeq_preserves (cc : String → String → Bool)
    (reqs : List (String × TaskComplexity)) (c : TaskCoordinator)
    (t : String) (a : Agent) (hl : c.agents.lookup t = some a)
    (hnd : (c.agents.map Prod.fst).Nodup) :
    (runSeq cc c reqs).agents.lookup t = some a ∧
    ((runSeq cc c reqs).agents.map Prod.fst).Nodup := by
  induction reqs generalizing c with
  | nil => exact ⟨hl, hnd⟩
  | cons hd tl ih =>
    obtain ⟨u, cm⟩ := hd
    rw [runSeq]
    have hstep : (stateAfter c u cm cc).agents.lookup t = some a ∧
        ((stateAfter c u cm cc).agents.map Prod.fst).Nodup := by
      rw [stateAfter]
      cases hg : get_or_create_agent c u cm cc with
      | error e => exact ⟨hl, hnd⟩
      | ok res =>
        obtain ⟨a2, c3, b2⟩ := res
        obtain ⟨-, hpres, hndp⟩ := goca_ok_lookup c u cm cc a2 c3 b2 hg
        exact ⟨hpres t a hl, hndp hnd⟩
    exact ih _ hstep.1 hstep.2

/-- Claim C9: once _get_or_create_agent has returned an agent for a type,
every later call for that same type — after any interleaved sequence of
further requests — returns the identical cached instance, leaves the
coordinator state unchanged and does not invoke the router (the Boolean
component is false), and the cache keeps at most one agent per type (its
key list stays duplicate-free). -/
theorem claim_C9 (c : TaskCoordinator) (t : String)
    (cmpl cmpl2 : TaskComplexity) (cc : String → String → Bool) (a : Agent)
    (c2 : TaskCoordinator) (b : Bool) (reqs : List (String × TaskComplexity))
    (hnd : (c.agents.map Prod.fst).Nodup)
    (h : get_or_create_agent c t cmpl cc = .ok (a, c2, b)) :
    get_or_create_agent (runSeq cc c2 reqs) t cmpl2 cc =
      .ok (a, runSeq cc c2 reqs, false) ∧
    (((runSeq cc c2 reqs).agents.map Prod.fst).Nodup) := by
  obtain ⟨hl2, -, hnd2⟩ := goca_ok_lookup c t cmpl cc a c2 b h
  obtain ⟨hl3, hnd3⟩ := runSeq_preserves cc reqs c2 t a hl2 (hnd2 hnd)
  exact ⟨goca_cached _ _ _ _ _ hl3, hnd3⟩

/-- Witness for C9: a fresh coordinator with groq credentialed constructs
the technical agent once (router invoked, flag true); after an
interleaved fundamental request, a second technical request returns the
identical cached agent with the router not invoked (flag false). -/
theorem claim_C9_witness :
    ((([] : List (String × Agent)).map Prod.fst).Nodup) ∧
    get_or_create_agent
      (⟨⟨none, none, true, [("groq", true)]⟩, 4, []⟩ : TaskCoordinator)
      "technical" .MODERATE (fun _ _ => true) =
      .ok (Agent.technical "groq" "llama-3.3-70b-versatile",
        (⟨⟨none, none, true, [("groq", true)]⟩, 4,
          [("technical", Agent.technical "groq" "llama-3.3-70b-versatile")]⟩ :
            TaskCoordinator), true) ∧
    get_or_create_agent
      (runSeq (fun _ _ => true)
        (⟨⟨none, none, true, [("groq", true)]⟩, 4,
          [("technical", Agent.technical "groq" "llama-3.3-70b-versatile")]⟩ :
            TaskCoordinator)
        [("fundamental", .MODERATE)])
      "technical" .CRITICAL (fun _ _ => true) =
      .ok (Agent.technical "groq" "llama-3.3-70b-versatile",
        runSeq (fun _ _ => true)
          (⟨⟨none, none, true, [("groq", true)]⟩, 4,
            [("technical", Agent.technical "groq" "llama-3.3-70b-versatile")]⟩ :
              TaskCoordinator)
          [("fundamental", .MODERATE)], false) := by
  have h := claim_C9
    (⟨⟨none, none, true, [("groq", true)]⟩, 4, []⟩ : TaskCoordinator)
    "technical" .MODERATE .CRITICAL (fun _ _ => true)
    (Agent.technical "groq" "llama-3.3-70b-versatile")
    (⟨⟨none, none, true, [("groq", true)]⟩, 4,
      [("technical", Agent.technical "groq" "llama-3.3-70b-versatile")]⟩ :
        TaskCoordinator)
    true [("fundamental", .MODERATE)] (by decide) (by decide)
  exact ⟨by decide, by decide, h.1⟩
